import Mathlib

/-!
# cpu-governor: a shallow embedding of `cpu-governor.c`

The C program reads and writes control nodes of the sysfs cpufreq hierarchy.
The embedding passes a simulated filesystem explicitly.

Modelling conventions.

* C strings are `List Char` (no embedded NUL byte); string literals of the
  source are written `"...".toList`.
* A filesystem is the directory listing, in `readdir` order, of its nodes.
  Every node says whether `fopen(path, "r")` and `fopen(path, "w")` succeed
  and holds its text.  Nodes are never created or removed by the program.
* Every call of `write_file` is recorded in a log (the write spy), together
  with the value returned by the call.
* `fprintf(file, "%s", value)` on a freshly opened stream returns the number
  of characters of `value`.
* `printf` output that a claim talks about is kept as a list of events.
* Counters (`int`, `size_t`) are natural numbers: the number of nodes in a
  listing stays far below `2^31`.
-/

namespace CpuGovernor

/-- A C string: the characters before the terminating NUL. -/
abbrev CStr := List Char

def MAX_PATH : Nat := 256
def MAX_BUFFER : Nat := 1024

/-! ## The simulated filesystem -/

/-- One control node of the hierarchy. -/
structure Node where
  /-- Whether `fopen(path, "r")` succeeds. -/
  readable : Bool
  /-- Whether `fopen(path, "w")` succeeds. -/
  writable : Bool
  /-- The text stored in the node. -/
  content : CStr
deriving DecidableEq

/-- One recorded call `write_file(path, value)` and the value it returned. -/
structure WriteCall where
  path : CStr
  value : CStr
  result : Bool
deriving DecidableEq

/-- The filesystem state threaded through the program. -/
structure FS where
  /-- The nodes that exist, in directory order. -/
  entries : List (CStr × Node)
  /-- Whether `glob` ends with an error (`GLOB_NOSPACE`, `GLOB_ABORTED`). -/
  globFails : Bool
  /-- The calls of `write_file` made so far, oldest first. -/
  log : List WriteCall
deriving DecidableEq

/-- The node stored under a path, if the path exists. -/
def lookup : List (CStr × Node) → CStr → Option Node
  | [], _ => none
  | (q, n) :: rest, p => if q = p then some n else lookup rest p

/-- Replace the node stored under a path. -/
def update : List (CStr × Node) → CStr → Node → List (CStr × Node)
  | [], _, _ => []
  | (q, n) :: rest, p, m =>
    if q = p then (q, m) :: rest else (q, n) :: update rest p m

/-! ## Library functions used by the source -/

/-- The characters `fgets` stores when it may store at most `n` of them:
it stops after a newline, at end of file, or when `n` characters are read. -/
def fgetsChars : Nat → CStr → CStr
  | 0, _ => []
  | _ + 1, [] => []
  | n + 1, c :: cs => if c = '\n' then [c] else c :: fgetsChars n cs

/-- The call `fgets(buffer, size, file)` on a stream positioned at the start
of `stream`: `none` is the NULL returned at end of file. -/
def fgets (size : Nat) (stream : CStr) : Option CStr :=
  match stream with
  | [] => none
  | _ :: _ => some (fgetsChars (size - 1) stream)

/-- Whether `needle` is found at the very start of `hay`. -/
def startsWith : CStr → CStr → Bool
  | [], _ => true
  | _ :: _, [] => false
  | a :: as, b :: bs => a == b && startsWith as bs

/-- The call `strstr(hay, needle)`: the tail of `hay` that starts at the first
occurrence of `needle`, or `none` for NULL. -/
def strstr : CStr → CStr → Option CStr
  | [], needle => if startsWith needle [] then some [] else none
  | h :: t, needle =>
    if startsWith needle (h :: t) then some (h :: t) else strstr t needle

/-- The effect of `strchr(buffer, '\n')` followed by `*newline = '\0'`. -/
def cutAtNewline (buffer : CStr) : CStr :=
  buffer.takeWhile (fun c => c != '\n')

/-- Remove a literal from the front of a string, if it is there. -/
def dropLiteral : CStr → CStr → Option CStr
  | [], s => some s
  | _ :: _, [] => none
  | a :: as, b :: bs => if a = b then dropLiteral as bs else none

/-- Whether a path matches
`/sys/devices/system/cpu/cpu[0-9]*/cpufreq/scaling_governor`
(the star does not cross a slash). -/
def matchesCorePattern (path : CStr) : Bool :=
  match dropLiteral "/sys/devices/system/cpu/cpu".toList path with
  | none => false
  | some [] => false
  | some (d :: rest) =>
    d.isDigit &&
      rest.dropWhile (fun c => c != '/') == "/cpufreq/scaling_governor".toList

/-- The call `glob(pattern, GLOB_NOSORT, NULL, &glob_result)`: `some paths`
when it returns 0, `none` when it returns an error or `GLOB_NOMATCH`. -/
def glob (fs : FS) : Option (List CStr) :=
  if fs.globFails then none
  else
    match (fs.entries.map Prod.fst).filter matchesCorePattern with
    | [] => none
    | p :: ps => some (p :: ps)

/-- The C test `isspace`. -/
def isspace (c : Char) : Bool :=
  c == ' ' || c == '\t' || c == '\n' || c == '\x0b' || c == '\x0c' || c == '\r'

/-- The digits at the front of a string, accumulated in base ten. -/
def atoiDigits : Nat → CStr → Nat
  | acc, [] => acc
  | acc, c :: cs =>
    if c.isDigit then atoiDigits (acc * 10 + (c.toNat - '0'.toNat)) cs else acc

/-- The sign and the digits after the leading white space. -/
def atoiSigned : CStr → Int
  | [] => 0
  | c :: cs =>
    if c = '-' then - (atoiDigits 0 cs : Int)
    else if c = '+' then (atoiDigits 0 cs : Int)
    else (atoiDigits 0 (c :: cs) : Int)

/-- The call `atoi(s)` as `(int) strtol(s, NULL, 10)` with a 64-bit `long`:
the value saturates at the bounds of `long` and is then cut to 32 bits. -/
def atoi (s : CStr) : Int :=
  let v := atoiSigned (s.dropWhile isspace)
  let l := max (-(2 : Int) ^ 63) (min v ((2 : Int) ^ 63 - 1))
  (l + 2 ^ 31) % 2 ^ 32 - 2 ^ 31

/-! ## The functions of the source -/

def file_exists (fs : FS) (path : CStr) : Bool :=
  (lookup fs.entries path).isSome

/-- The function `read_file`: `some buffer` when it returns 1. -/
def read_file (fs : FS) (path : CStr) (size : Nat) : Option CStr :=
  match lookup fs.entries path with
  | none => none
  | some node =>
    if !node.readable then none
    else
      match fgets size node.content with
      | some buffer => some (cutAtNewline buffer)
      | none => none

/-- The function `write_file`: the returned flag and the filesystem after
the call.  A successful `fopen(path, "w")` truncates the node, and the value
is stored when the stream is closed. -/
def write_file (fs : FS) (path : CStr) (value : CStr) : Bool × FS :=
  match lookup fs.entries path with
  | none => (false, { fs with log := fs.log ++ [⟨path, value, false⟩] })
  | some node =>
    if !node.writable then
      (false, { fs with log := fs.log ++ [⟨path, value, false⟩] })
    else
      let result := decide (value.length > 0)
      (result,
        { fs with
          entries := update fs.entries path { node with content := value }
          log := fs.log ++ [⟨path, value, result⟩] })

def get_cpu_count (fs : FS) : Nat :=
  match glob fs with
  | some paths => paths.length
  | none => 0

def availableGovernorsPath : CStr :=
  "/sys/devices/system/cpu/cpu0/cpufreq/scaling_available_governors".toList

def currentGovernorPath : CStr :=
  "/sys/devices/system/cpu/cpu0/cpufreq/scaling_governor".toList

def validate_governor (fs : FS) (governor : CStr) : Bool :=
  match read_file fs availableGovernorsPath MAX_BUFFER with
  | none => false
  | some available => (strstr available governor).isSome

/-- The counters and the filesystem while `set_governor` walks the paths. -/
structure ApplyState where
  success_count : Nat
  total_count : Nat
  fs : FS
deriving DecidableEq

/-- The `for` loop of `set_governor` over `glob_result.gl_pathv`. -/
def applyLoop (governor : CStr) : List CStr → ApplyState → ApplyState
  | [], st => st
  | p :: ps, st =>
    let w := write_file st.fs p governor
    applyLoop governor ps
      { success_count := if w.1 then st.success_count + 1 else st.success_count
        total_count := st.total_count + 1
        fs := w.2 }

/-- What `set_governor` returns, with its two counters at the return. -/
structure ApplyResult where
  ret : Int
  success_count : Nat
  total_count : Nat
  fs : FS
deriving DecidableEq

def set_governor (fs : FS) (governor : CStr) : ApplyResult :=
  if !validate_governor fs governor then
    { ret := 0, success_count := 0, total_count := 0, fs := fs }
  else
    let st : ApplyState :=
      match glob fs with
      | some paths => applyLoop governor paths ⟨0, 0, fs⟩
      | none => ⟨0, 0, fs⟩
    if st.success_count = st.total_count ∧ st.total_count > 0 then
      { ret := 1, success_count := st.success_count,
        total_count := st.total_count, fs := st.fs }
    else
      { ret := 0, success_count := st.success_count,
        total_count := st.total_count, fs := st.fs }

def boostPath : CStr := "/sys/devices/system/cpu/cpufreq/boost".toList

def noTurboPath : CStr := "/sys/devices/system/cpu/intel_pstate/no_turbo".toList

def boost_files : List CStr := [boostPath, noTurboPath]

/-- The value `set_cpu_boost` picks for candidate `i`. -/
def boostValue (i : Nat) (enable : Int) : CStr :=
  if i = 0 then (if enable ≠ 0 then "1".toList else "0".toList)
  else (if enable ≠ 0 then "0".toList else "1".toList)

/-- The `for` loop of `set_cpu_boost` over the remaining indices. -/
def boostLoop (enable : Int) : List Nat → FS → FS
  | [], fs => fs
  | i :: is, fs =>
    if file_exists fs (boost_files.getD i []) then
      let w := write_file fs (boost_files.getD i []) (boostValue i enable)
      if w.1 then w.2 else boostLoop enable is w.2
    else boostLoop enable is fs

def set_cpu_boost (enable : Int) (fs : FS) : FS :=
  boostLoop enable (List.range 2) fs

def performance_mode (fs : FS) : FS :=
  set_cpu_boost 1 (set_governor fs "performance".toList).fs

def powersave_mode (fs : FS) : FS :=
  set_cpu_boost 0 (set_governor fs "powersave".toList).fs

/-- What the process sees besides the control nodes. -/
structure Env where
  /-- The value of `getuid()`. -/
  uid : Nat
  /-- Whether `install_systemwide()` returns 1. -/
  installOk : Bool
deriving DecidableEq

def is_root (env : Env) : Bool := env.uid == 0

/-- The function `main` on `argv`: the exit code and the filesystem left.
The text printed on the way is not kept. -/
def main (env : Env) (argv : List CStr) (fs : FS) : Int × FS :=
  match argv with
  | [] => (1, fs)
  | [_] => (1, fs)
  | _ :: command :: _ =>
    if command = "help".toList ∨ command = "-h".toList then (0, fs)
    else if command = "status".toList then (0, fs)
    else if command = "install".toList then
      if !is_root env then (1, fs)
      else (if env.installOk then 0 else 1, fs)
    else if !is_root env then (1, fs)
    else if command = "performance".toList then (0, performance_mode fs)
    else if command = "powersave".toList then (0, powersave_mode fs)
    else
      let r := set_governor fs command
      if r.ret = 0 then (1, r.fs) else (0, r.fs)

/-- The pieces of output of `show_current_status`. -/
inductive Out where
  | banner
  | currentGovernor (name : CStr)
  | cannotReadGovernor
  | available (text : CStr)
  | cpuCores (count : Nat)
  | frequenciesLabel
  | sample (cpu : Nat) (freq_mhz : Int)
  | more
  | newline
deriving DecidableEq

/-- The path built by `snprintf` for core `i` in `show_current_status`. -/
def freqPath (i : Nat) : CStr :=
  ("/sys/devices/system/cpu/cpu".toList ++ (Nat.repr i).toList ++
    "/cpufreq/scaling_cur_freq".toList).take (MAX_PATH - 1)

/-- The sampling loop of `show_current_status` over the indices. -/
def sampleLoop (fs : FS) : List Nat → List Out
  | [] => []
  | i :: is =>
    match read_file fs (freqPath i) MAX_BUFFER with
    | some buffer => Out.sample i (Int.tdiv (atoi buffer) 1000) :: sampleLoop fs is
    | none => sampleLoop fs is

def show_current_status (fs : FS) : List Out :=
  match read_file fs currentGovernorPath MAX_BUFFER with
  | none => [Out.banner, Out.cannotReadGovernor]
  | some buffer =>
    let avail :=
      match read_file fs availableGovernorsPath MAX_BUFFER with
      | some available => [Out.available available]
      | none => []
    let cpu_count := get_cpu_count fs
    [Out.banner, Out.currentGovernor buffer] ++ avail ++
      [Out.cpuCores cpu_count, Out.frequenciesLabel] ++
      sampleLoop fs (List.range (min 4 cpu_count)) ++
      (if cpu_count > 4 then [Out.more] else []) ++ [Out.newline]

/-! ## Vocabulary for the statements -/

/-- Whether `fopen(path, "w")` succeeds in a filesystem. -/
def canOpenW (fs : FS) (path : CStr) : Bool :=
  match lookup fs.entries path with
  | some node => node.writable
  | none => false

/-- The text stored under a path, if the path exists. -/
def contentOf (fs : FS) (path : CStr) : Option CStr :=
  (lookup fs.entries path).map Node.content

/-- The flag `write_file(p, governor)` returns in a given filesystem. -/
def writeOk (fs : FS) (governor : CStr) (p : CStr) : Bool :=
  canOpenW fs p && decide (governor.length > 0)

/-- The core nodes the enumerator hands to the loop of `set_governor`:
none when `glob` does not return 0. -/
def enumerated (fs : FS) : List CStr :=
  match glob fs with
  | some paths => paths
  | none => []

/-- The calls of `write_file` recorded between two states. -/
def newCalls (before after : FS) : List WriteCall :=
  after.log.drop before.log.length

/-- The calls among a list that target a given path. -/
def callsTo (path : CStr) (calls : List WriteCall) : List WriteCall :=
  calls.filter (fun c => c.path == path)

/-! ## Sample filesystems -/

/-- The governor-control node of core `i`. -/
def corePath (i : Nat) : CStr :=
  "/sys/devices/system/cpu/cpu".toList ++ (Nat.repr i).toList ++
    "/cpufreq/scaling_governor".toList

/-- A node with the given open modes and text. -/
def mkNode (readable writable : Bool) (text : String) : Node :=
  ⟨readable, writable, text.toList⟩

/-- Three cores; the second one rejects writes. -/
def threeCores : FS :=
  { entries :=
      [ (corePath 0, mkNode true true "powersave\n"),
        (availableGovernorsPath, mkNode true false "performance powersave\n"),
        (corePath 1, mkNode true false "powersave\n"),
        (corePath 2, mkNode true true "powersave\n") ]
    globFails := false
    log := [] }

/-- Two cores, both writable. -/
def twoCores : FS :=
  { entries :=
      [ (corePath 0, mkNode true true "powersave\n"),
        (availableGovernorsPath, mkNode true false "performance powersave\n"),
        (corePath 1, mkNode true true "powersave\n") ]
    globFails := false
    log := [] }

/-- The available-governors node alone: no core node matches the pattern. -/
def noCores : FS :=
  { entries :=
      [ (availableGovernorsPath, mkNode true false "performance powersave\n") ]
    globFails := false
    log := [] }

/-- Both boost candidates exist; the first one rejects writes. -/
def boostRejected : FS :=
  { entries :=
      [ (boostPath, mkNode true false "1\n"),
        (noTurboPath, mkNode true true "0\n") ]
    globFails := false
    log := [] }

/-- Both boost candidates exist and accept writes. -/
def boostBoth : FS :=
  { entries :=
      [ (boostPath, mkNode true true "1\n"),
        (noTurboPath, mkNode true true "0\n") ]
    globFails := false
    log := [] }

/-- A machine without cpufreq support: no control node exists. -/
def noCpufreq : FS :=
  { entries := [], globFails := false, log := [] }

/-- The frequency samples among the output, with the core index printed. -/
def samplesOf : List Out → List (Nat × Int)
  | [] => []
  | Out.sample i f :: rest => (i, f) :: samplesOf rest
  | _ :: rest => samplesOf rest

/-- The frequency node next to a governor-control node. -/
def freqNodeOf (governorNode : CStr) : CStr :=
  governorNode.take (governorNode.length - "scaling_governor".length) ++
    "scaling_cur_freq".toList

/-- The sampling the status report is said to do: the current frequency, in
MHz, of the first four cores in enumeration order. -/
def sampledInEnumerationOrder (fs : FS) : List Int :=
  ((enumerated fs).take 4).filterMap (fun p =>
    (read_file fs (freqNodeOf p) MAX_BUFFER).map (fun b => Int.tdiv (atoi b) 1000))

/-- Two cores, `cpu0` and `cpu2`; `cpu1` is offline and has no cpufreq nodes. -/
def gapCores : FS :=
  { entries :=
      [ (corePath 0, mkNode true true "powersave\n"),
        (availableGovernorsPath, mkNode true false "performance powersave\n"),
        (freqPath 0, mkNode true false "2400000\n"),
        (corePath 2, mkNode true true "powersave\n"),
        (freqNodeOf (corePath 2), mkNode true false "1800000\n") ]
    globFails := false
    log := [] }

/-- Six cores numbered 0 to 5, each with a frequency node. -/
def sixCores : FS :=
  { entries :=
      (List.range 6).map (fun i => (corePath i, mkNode true true "powersave\n")) ++
      (List.range 6).map (fun i => (freqPath i, mkNode true false "3600999\n"))
    globFails := false
    log := [] }

/-! ## Lemmas about the primitives -/

theorem lookup_update (es : List (CStr × Node)) (p q : CStr) (m : Node) :
    lookup (update es p m) q =
      if q = p then (lookup es p).map (fun _ => m) else lookup es q := by
  induction es with
  | nil => simp [update, lookup]
  | cons e rest ih =>
    obtain ⟨k, n⟩ := e
    by_cases hk : k = p
    · subst hk
      by_cases hq : q = k
      · subst hq; simp [update, lookup]
      · have hq2 : ¬ k = q := fun h => hq h.symm
        simp [update, lookup, hq, hq2]
    · by_cases hq : q = p
      · subst hq
        simp [update, lookup, hk, ih]
      · by_cases hkq : k = q
        · simp [update, lookup, hk, hq, hkq]
        · simp [update, lookup, hk, hq, hkq, ih]

theorem map_fst_update (es : List (CStr × Node)) (p : CStr) (m : Node) :
    (update es p m).map Prod.fst = es.map Prod.fst := by
  induction es with
  | nil => rfl
  | cons e rest ih =>
    obtain ⟨k, n⟩ := e
    by_cases hk : k = p <;> simp [update, hk, ih]

theorem write_file_fst (fs : FS) (p v : CStr) :
    (write_file fs p v).1 = (canOpenW fs p && decide (v.length > 0)) := by
  unfold write_file canOpenW
  cases h : lookup fs.entries p with
  | none => simp
  | some n => cases hw : n.writable <;> simp [hw]

theorem write_file_log (fs : FS) (p v : CStr) :
    (write_file fs p v).2.log =
      fs.log ++ [⟨p, v, canOpenW fs p && decide (v.length > 0)⟩] := by
  unfold write_file canOpenW
  cases h : lookup fs.entries p with
  | none => simp
  | some n => cases hw : n.writable <;> simp [hw]

theorem write_file_keys (fs : FS) (p v : CStr) :
    (write_file fs p v).2.entries.map Prod.fst = fs.entries.map Prod.fst := by
  unfold write_file
  cases h : lookup fs.entries p with
  | none => simp
  | some n => cases hw : n.writable <;> simp [hw, map_fst_update]

theorem write_file_globFails (fs : FS) (p v : CStr) :
    (write_file fs p v).2.globFails = fs.globFails := by
  unfold write_file
  cases h : lookup fs.entries p with
  | none => simp
  | some n => cases hw : n.writable <;> simp [hw]

theorem write_file_canOpenW (fs : FS) (p v q : CStr) :
    canOpenW (write_file fs p v).2 q = canOpenW fs q := by
  unfold write_file canOpenW
  cases h : lookup fs.entries p with
  | none => simp
  | some n =>
    cases hw : n.writable
    · simp [hw]
    · by_cases hq : q = p
      · subst hq; simp [hw, lookup_update, h]
      · simp [hw, lookup_update, hq]

theorem write_file_contentOf (fs : FS) (p v q : CStr) :
    contentOf (write_file fs p v).2 q =
      if q = p ∧ canOpenW fs p = true then some v else contentOf fs q := by
  unfold write_file canOpenW contentOf
  cases h : lookup fs.entries p with
  | none => simp
  | some n =>
    cases hw : n.writable
    · simp [hw]
    · by_cases hq : q = p
      · subst hq; simp [hw, lookup_update, h]
      · simp [hw, lookup_update, hq]

theorem applyLoop_spec (g : CStr) (ps : List CStr) :
    ∀ st : ApplyState,
      (applyLoop g ps st).total_count = st.total_count + ps.length ∧
      (applyLoop g ps st).success_count =
        st.success_count + (ps.filter (writeOk st.fs g)).length ∧
      (applyLoop g ps st).fs.log =
        st.fs.log ++ ps.map (fun p => ⟨p, g, writeOk st.fs g p⟩) ∧
      (∀ q, canOpenW (applyLoop g ps st).fs q = canOpenW st.fs q) ∧
      (∀ q, contentOf (applyLoop g ps st).fs q =
        if q ∈ ps ∧ canOpenW st.fs q = true then some g else contentOf st.fs q) := by
  induction ps with
  | nil => intro st; simp [applyLoop]
  | cons p ps ih =>
    intro st
    have hw : ∀ q, writeOk (write_file st.fs p g).2 g q = writeOk st.fs g q := by
      intro q; simp [writeOk, write_file_canOpenW]
    have hfun : writeOk (write_file st.fs p g).2 g = writeOk st.fs g := funext hw
    obtain ⟨h1, h2, h3, h4, h5⟩ := ih
      { success_count :=
          if (write_file st.fs p g).1 then st.success_count + 1 else st.success_count
        total_count := st.total_count + 1
        fs := (write_file st.fs p g).2 }
    simp only [applyLoop]
    refine ⟨?_, ?_, ?_, ?_, ?_⟩
    · rw [h1]; simp; omega
    · rw [h2]
      simp only [hfun, write_file_fst, List.filter_cons]
      simp only [writeOk]
      by_cases hb : (canOpenW st.fs p && decide (g.length > 0)) = true
      · simp only [hb, if_true, List.length_cons]; omega
      · simp only [hb, if_false]
        rfl
    · rw [h3]
      simp only [hfun, write_file_log, List.map_cons, List.append_assoc]
      rfl
    · intro q; rw [h4]; exact write_file_canOpenW _ _ _ _
    · intro q
      rw [h5]
      simp only [write_file_canOpenW, write_file_contentOf, List.mem_cons]
      by_cases hq : q = p
      · subst hq
        by_cases hc : canOpenW st.fs q = true <;> simp [hc]
      · simp [hq]

theorem startsWith_iff (needle : CStr) : ∀ hay : CStr,
    startsWith needle hay = true ↔ needle <+: hay := by
  induction needle with
  | nil => intro hay; simp [startsWith]
  | cons a as ih =>
    intro hay
    cases hay with
    | nil => simp [startsWith]
    | cons b bs => simp [startsWith, ih bs, List.cons_prefix_cons]

theorem strstr_isSome_iff (needle : CStr) : ∀ hay : CStr,
    (strstr hay needle).isSome = true ↔ needle <:+: hay := by
  intro hay
  induction hay with
  | nil =>
    unfold strstr
    by_cases h : startsWith needle [] = true
    · have := (startsWith_iff needle []).1 h
      have hn : needle = [] := List.prefix_nil.1 this
      subst hn
      simp [startsWith]
    · have hne : ¬ needle = [] := fun e => h (by subst e; rfl)
      simp [h, hne]
  | cons c t ih =>
    unfold strstr
    by_cases h : startsWith needle (c :: t) = true
    · simp only [h, if_true, Option.isSome_some, true_iff]
      exact ((startsWith_iff needle _).1 h).isInfix
    · simp only [h, if_false, Bool.false_eq_true]
      rw [ih, List.infix_cons_iff]
      have : ¬ needle <+: c :: t := fun hp => h ((startsWith_iff needle _).2 hp)
      simp [this]

theorem cutAtNewline_fgetsChars (n : Nat) : ∀ s : CStr,
    cutAtNewline (fgetsChars n s) = cutAtNewline (s.take n) := by
  induction n with
  | zero => intro s; simp [fgetsChars]
  | succ n ih =>
    intro s
    cases s with
    | nil => simp [fgetsChars]
    | cons c cs =>
      by_cases hc : c = '\n'
      · subst hc; simp [fgetsChars, cutAtNewline]
      · have := ih cs
        simp only [cutAtNewline] at this
        simp [fgetsChars, cutAtNewline, hc, this]

theorem read_file_eq_some_iff (fs : FS) (path : CStr) (size : Nat) (text : CStr) :
    read_file fs path size = some text ↔
      ∃ node, lookup fs.entries path = some node ∧ node.readable = true ∧
        node.content ≠ [] ∧ text = cutAtNewline (node.content.take (size - 1)) := by
  unfold read_file
  cases h : lookup fs.entries path with
  | none => simp
  | some node =>
    cases hr : node.readable
    · simp [hr]
    · cases hc : node.content with
      | nil => simp [fgets, hc]
      | cons c cs =>
        simp only [fgets, hr, hc, Bool.not_true, Bool.false_eq_true, if_false,
          Option.some.injEq, cutAtNewline_fgetsChars]
        constructor
        · intro e; exact ⟨node, rfl, hr, by simp [hc], by rw [hc]; exact e.symm⟩
        · rintro ⟨n2, e1, -, -, e4⟩
          cases e1
          rw [hc] at e4; exact e4.symm

/-! ## The governor applier -/

theorem enumerated_length (fs : FS) : (enumerated fs).length = get_cpu_count fs := by
  unfold enumerated get_cpu_count
  cases glob fs <;> rfl

theorem glob_eq_none_iff (fs : FS) :
    glob fs = none ↔
      fs.globFails = true ∨ ∀ e ∈ fs.entries, matchesCorePattern e.1 = false := by
  unfold glob
  cases hg : fs.globFails
  · simp only [Bool.false_eq_true, if_false, false_or]
    cases hm : (fs.entries.map Prod.fst).filter matchesCorePattern with
    | nil =>
      simp only [true_iff]
      intro e he
      have := List.filter_eq_nil_iff.1 hm e.1 (List.mem_map_of_mem _ he)
      simpa using this
    | cons p ps =>
      refine ⟨fun h => Option.noConfusion h, fun hall => ?_⟩
      exfalso
      have hp : p ∈ (fs.entries.map Prod.fst).filter matchesCorePattern := by
        rw [hm]; exact List.mem_cons_self _ _
      obtain ⟨hmem, hmatch⟩ := List.mem_filter.1 hp
      obtain ⟨e, he, rfl⟩ := List.mem_map.1 hmem
      rw [hall e he] at hmatch
      exact Bool.false_ne_true hmatch
  · exact ⟨fun _ => Or.inl rfl, fun _ => rfl⟩

theorem enumerated_of_glob_none (fs : FS) (h : glob fs = none) : enumerated fs = [] := by
  simp [enumerated, h]

/-- What `set_governor` does once the validator has accepted the name. -/
theorem set_governor_valid (fs : FS) (g : CStr) (hv : validate_governor fs g = true) :
    (set_governor fs g).total_count = (enumerated fs).length ∧
    (set_governor fs g).success_count = ((enumerated fs).filter (writeOk fs g)).length ∧
    (set_governor fs g).fs.log =
      fs.log ++ (enumerated fs).map (fun p => ⟨p, g, writeOk fs g p⟩) ∧
    (∀ q, contentOf (set_governor fs g).fs q =
      if q ∈ enumerated fs ∧ canOpenW fs q = true then some g else contentOf fs q) ∧
    ((set_governor fs g).ret =
      if (set_governor fs g).success_count = (set_governor fs g).total_count ∧
        (set_governor fs g).total_count > 0 then 1 else 0) ∧
    (glob fs = none → (set_governor fs g).fs = fs) := by
  unfold set_governor enumerated
  simp only [hv, Bool.not_true, Bool.false_eq_true, if_false]
  cases hg : glob fs with
  | none =>
    simp
  | some paths =>
    obtain ⟨h1, h2, h3, h4, h5⟩ := applyLoop_spec g paths ⟨0, 0, fs⟩
    simp only at h1 h2 h3 h4 h5
    split <;> simp [h1, h2, h3, h5]

theorem newCalls_append (before after : FS) (calls : List WriteCall)
    (h : after.log = before.log ++ calls) : newCalls before after = calls := by
  simp [newCalls, h]

theorem filter_result_map (fs : FS) (g : CStr) (ps : List CStr) :
    ((ps.map (fun p => (⟨p, g, writeOk fs g p⟩ : WriteCall))).filter
      WriteCall.result).length = (ps.filter (writeOk fs g)).length := by
  induction ps with
  | nil => rfl
  | cons p ps ih =>
    cases h : writeOk fs g p <;> simp [List.filter_cons, h, ih]

theorem filter_not_result_map (fs : FS) (g : CStr) (ps : List CStr) :
    ((ps.map (fun p => (⟨p, g, writeOk fs g p⟩ : WriteCall))).filter
      (fun c => !c.result)).length + (ps.filter (writeOk fs g)).length = ps.length := by
  induction ps with
  | nil => rfl
  | cons p ps ih =>
    cases h : writeOk fs g p <;> simp [List.filter_cons, h] <;> omega

/-- C1: when the validator rejects the name, `set_governor` returns 0, both
counters are 0 and the filesystem, write log included, is left as it was. -/
theorem C1_rejected_name_writes_nothing (fs : FS) (g : CStr)
    (h : validate_governor fs g = false) :
    (set_governor fs g).ret = 0 ∧ (set_governor fs g).fs = fs ∧
      (set_governor fs g).total_count = 0 ∧ (set_governor fs g).success_count = 0 ∧
      newCalls fs (set_governor fs g).fs = [] := by
  simp [set_governor, h, newCalls]

theorem C1_rejected_name_witness :
    validate_governor threeCores "ondemand".toList = false ∧
      (set_governor threeCores "ondemand".toList).ret = 0 ∧
      (set_governor threeCores "ondemand".toList).fs = threeCores ∧
      (set_governor threeCores "ondemand".toList).total_count = 0 ∧
      (set_governor threeCores "ondemand".toList).success_count = 0 ∧
      newCalls threeCores (set_governor threeCores "ondemand".toList).fs = [] :=
  ⟨by decide, C1_rejected_name_writes_nothing threeCores "ondemand".toList (by decide)⟩

/-- C3: for a validated name, `set_governor` calls `write_file` once on every
enumerated core node, in order, whatever the earlier calls returned;
`total_count` is the number of nodes, `success_count` the number of calls
that returned success, so `success_count ≤ total_count`; with three nodes of
which exactly one call fails the counts are 2 and 3. -/
theorem C3_every_core_attempted (fs : FS) (g : CStr)
    (hv : validate_governor fs g = true) :
    (set_governor fs g).fs.log = fs.log ++ newCalls fs (set_governor fs g).fs ∧
    newCalls fs (set_governor fs g).fs =
      (enumerated fs).map (fun p => ⟨p, g, (write_file fs p g).1⟩) ∧
    (set_governor fs g).total_count = (enumerated fs).length ∧
    (set_governor fs g).success_count =
      ((newCalls fs (set_governor fs g).fs).filter WriteCall.result).length ∧
    (set_governor fs g).success_count ≤ (set_governor fs g).total_count ∧
    ((enumerated fs).length = 3 →
      ((newCalls fs (set_governor fs g).fs).filter (fun c => !c.result)).length = 1 →
      (set_governor fs g).success_count = 2 ∧ (set_governor fs g).total_count = 3) := by
  obtain ⟨h1, h2, h3, -, -, -⟩ := set_governor_valid fs g hv
  have hn := newCalls_append fs (set_governor fs g).fs _ h3
  have hf : (fun p => (⟨p, g, (write_file fs p g).1⟩ : WriteCall)) =
      (fun p => ⟨p, g, writeOk fs g p⟩) := by
    funext p; rw [write_file_fst]; rfl
  have hle : ((enumerated fs).filter (writeOk fs g)).length ≤ (enumerated fs).length :=
    List.length_filter_le _ _
  refine ⟨by rw [hn]; exact h3, by rw [hn, hf], h1, ?_, by omega, ?_⟩
  · rw [hn, filter_result_map]; exact h2
  · intro h3len hone
    rw [hn] at hone
    have := filter_not_result_map fs g (enumerated fs)
    omega

theorem C3_every_core_attempted_witness :
    validate_governor threeCores "performance".toList = true ∧
      (set_governor threeCores "performance".toList).success_count = 2 ∧
      (set_governor threeCores "performance".toList).total_count = 3 :=
  ⟨by decide,
    (C3_every_core_attempted threeCores "performance".toList (by decide)).2.2.2.2.2
      (by decide) (by decide)⟩

/-- C4: for a validated name, `set_governor` returns 1 exactly when
`total_count > 0` and `success_count = total_count`, and 0 otherwise; when
`glob` fails or no node matches the pattern the counts are 0 and 0, nothing
is written and the result is 0. -/
theorem C4_success_iff_all_written (fs : FS) (g : CStr)
    (hv : validate_governor fs g = true) :
    ((set_governor fs g).ret = 1 ↔
      (set_governor fs g).total_count > 0 ∧
        (set_governor fs g).success_count = (set_governor fs g).total_count) ∧
    ((set_governor fs g).ret ≠ 1 → (set_governor fs g).ret = 0) ∧
    ((fs.globFails = true ∨ ∀ e ∈ fs.entries, matchesCorePattern e.1 = false) →
      get_cpu_count fs = 0 ∧
      (set_governor fs g).success_count = 0 ∧ (set_governor fs g).total_count = 0 ∧
      (set_governor fs g).fs = fs ∧ newCalls fs (set_governor fs g).fs = [] ∧
      (set_governor fs g).ret = 0) := by
  obtain ⟨h1, h2, h3, -, h5, h6⟩ := set_governor_valid fs g hv
  refine ⟨?_, ?_, ?_⟩
  · rw [h5]
    constructor
    · intro h
      by_contra hc
      rw [if_neg (fun hh => hc ⟨hh.2, hh.1⟩)] at h
      exact absurd h (by decide)
    · intro h; rw [if_pos ⟨h.2, h.1⟩]
  · intro hne
    rw [h5] at hne ⊢
    split
    · rename_i hh; rw [if_pos hh] at hne; exact absurd rfl hne
    · rfl
  · intro hnone
    have hg : glob fs = none := (glob_eq_none_iff fs).2 hnone
    have he := enumerated_of_glob_none fs hg
    have hfs := h6 hg
    rw [he] at h1 h2
    simp only [List.filter_nil, List.length_nil] at h1 h2
    refine ⟨by rw [← enumerated_length, he]; rfl, h2, h1, hfs, by rw [hfs]; simp [newCalls], ?_⟩
    rw [h5, h1]; simp

theorem C4_success_iff_all_written_witness :
    validate_governor noCores "performance".toList = true ∧
      (set_governor noCores "performance".toList).ret = 0 ∧
      (set_governor noCores "performance".toList).total_count = 0 :=
  ⟨by decide,
    ((C4_success_iff_all_written noCores "performance".toList (by decide)).2.2
      (Or.inr (by decide))).2.2.2.2.2,
    ((C4_success_iff_all_written noCores "performance".toList (by decide)).2.2
      (Or.inr (by decide))).2.2.1⟩

theorem filter_writeOk_all (fs : FS) (g : CStr) (ps : List CStr) (hne : g ≠ [])
    (hw : ∀ p ∈ ps, canOpenW fs p = true) : ps.filter (writeOk fs g) = ps := by
  apply List.filter_eq_self.2
  intro p hp
  have hlen : 0 < g.length := List.length_pos.2 hne
  simp [writeOk, hw p hp, hlen]

theorem filter_writeOk_nil (fs : FS) (ps : List CStr) :
    ps.filter (writeOk fs []) = [] := by
  apply List.filter_eq_nil_iff.2
  intro p _
  simp [writeOk]

/-- C2, as stated, fails for the empty name: on two writable cores the
validator accepts it, yet no write counts as a success. -/
theorem C2_empty_name_counterexample :
    validate_governor twoCores [] = true ∧
      (enumerated twoCores).all (canOpenW twoCores) = true ∧
      get_cpu_count twoCores = 2 ∧
      (set_governor twoCores []).total_count = 2 ∧
      (set_governor twoCores []).success_count = 0 := by
  decide

/-- C2, amended: for a validated non-empty name and core nodes that can all
be opened for writing, `set_governor` ends with
`success_count = total_count = N`, the number of enumerated cores. -/
theorem C2_all_writable_all_succeed (fs : FS) (g : CStr)
    (hv : validate_governor fs g = true) (hne : g ≠ [])
    (hw : ∀ p ∈ enumerated fs, canOpenW fs p = true) :
    (set_governor fs g).success_count = (set_governor fs g).total_count ∧
      (set_governor fs g).total_count = get_cpu_count fs := by
  obtain ⟨h1, h2, -, -, -, -⟩ := set_governor_valid fs g hv
  rw [filter_writeOk_all fs g _ hne hw] at h2
  rw [h1, h2, enumerated_length]
  exact ⟨rfl, rfl⟩

theorem C2_all_writable_all_succeed_witness :
    validate_governor twoCores "performance".toList = true ∧
      "performance".toList ≠ [] ∧
      (∀ p ∈ enumerated twoCores, canOpenW twoCores p = true) ∧
      (set_governor twoCores "performance".toList).success_count =
        (set_governor twoCores "performance".toList).total_count ∧
      (set_governor twoCores "performance".toList).total_count =
        get_cpu_count twoCores :=
  ⟨by decide, by decide, by decide,
    C2_all_writable_all_succeed twoCores "performance".toList
      (by decide) (by decide) (by decide)⟩

/-- C10: when the available-governors node can be read, the validator
accepts the empty name; `write_file` with the empty value returns failure on
every path; so `set_governor` with the empty name on `N ≥ 1` writable cores
ends with `success_count = 0`, `total_count = N` and result 0, after one call
on every core node, each of which is left empty. -/
theorem C10_empty_name_accepted_never_applied (fs : FS)
    (hread : (read_file fs availableGovernorsPath MAX_BUFFER).isSome = true) :
    validate_governor fs [] = true ∧
    (∀ (fs2 : FS) (path : CStr), (write_file fs2 path []).1 = false) ∧
    (get_cpu_count fs ≥ 1 → (∀ p ∈ enumerated fs, canOpenW fs p = true) →
      (set_governor fs []).success_count = 0 ∧
      (set_governor fs []).total_count = get_cpu_count fs ∧
      (set_governor fs []).ret = 0 ∧
      newCalls fs (set_governor fs []).fs =
        (enumerated fs).map (fun p => ⟨p, [], false⟩) ∧
      (∀ p ∈ enumerated fs, contentOf (set_governor fs []).fs p = some [])) := by
  have hv : validate_governor fs [] = true := by
    unfold validate_governor
    cases hr : read_file fs availableGovernorsPath MAX_BUFFER with
    | none => rw [hr] at hread; exact absurd hread (by decide)
    | some text =>
      exact (strstr_isSome_iff [] text).2 List.nil_infix
  refine ⟨hv, ?_, ?_⟩
  · intro fs2 path
    rw [write_file_fst]; simp
  · intro hN hw
    obtain ⟨h1, h2, h3, h4, h5, -⟩ := set_governor_valid fs [] hv
    rw [filter_writeOk_nil] at h2
    have hcalls : (fun p => (⟨p, [], writeOk fs [] p⟩ : WriteCall)) =
        (fun p => ⟨p, [], false⟩) := by
      funext p; simp [writeOk]
    refine ⟨h2, by rw [h1, enumerated_length], ?_, ?_, ?_⟩
    · rw [h5, h1, h2, enumerated_length]
      have : ¬ (([] : List CStr).length = get_cpu_count fs ∧ get_cpu_count fs > 0) := by
        simp only [List.length_nil]; omega
      rw [if_neg this]
    · rw [newCalls_append fs _ _ h3, hcalls]
    · intro p hp
      rw [h4 p, if_pos ⟨hp, hw p hp⟩]

theorem C10_empty_name_witness :
    (read_file twoCores availableGovernorsPath MAX_BUFFER).isSome = true ∧
      validate_governor twoCores [] = true ∧
      (set_governor twoCores []).success_count = 0 ∧
      (set_governor twoCores []).total_count = get_cpu_count twoCores ∧
      (set_governor twoCores []).ret = 0 :=
  ⟨by decide,
    (C10_empty_name_accepted_never_applied twoCores (by decide)).1,
    ((C10_empty_name_accepted_never_applied twoCores (by decide)).2.2
      (by decide) (by decide)).1,
    ((C10_empty_name_accepted_never_applied twoCores (by decide)).2.2
      (by decide) (by decide)).2.1,
    ((C10_empty_name_accepted_never_applied twoCores (by decide)).2.2
      (by decide) (by decide)).2.2.1⟩

/-- C8: `validate_governor` returns true exactly when `read_file` succeeds on
the available-governors node and the name is a contiguous part of the text
read, which is the start of the node up to the first newline and at most
`MAX_BUFFER - 1` characters; it returns false when the read fails; and the
name `perf`, which is no space-separated token of
`performance powersave`, is accepted. -/
theorem C8_validation_is_substring_search :
    (∀ (fs : FS) (name : CStr),
      validate_governor fs name = true ↔
        ∃ text, read_file fs availableGovernorsPath MAX_BUFFER = some text ∧
          name <:+: text) ∧
    (∀ (fs : FS) (name : CStr),
      read_file fs availableGovernorsPath MAX_BUFFER = none →
        validate_governor fs name = false) ∧
    (∀ (fs : FS) (text : CStr),
      read_file fs availableGovernorsPath MAX_BUFFER = some text ↔
        ∃ node, lookup fs.entries availableGovernorsPath = some node ∧
          node.readable = true ∧ node.content ≠ [] ∧
          text = (node.content.take (MAX_BUFFER - 1)).takeWhile (fun c => c != '\n')) ∧
    (read_file twoCores availableGovernorsPath MAX_BUFFER =
        some "performance powersave".toList ∧
      "perf".toList ∉ "performance powersave".toList.splitOn ' ' ∧
      validate_governor twoCores "perf".toList = true) := by
  refine ⟨?_, ?_, ?_, by decide⟩
  · intro fs name
    unfold validate_governor
    cases hr : read_file fs availableGovernorsPath MAX_BUFFER with
    | none => simp
    | some text => simp [strstr_isSome_iff]
  · intro fs name hr
    simp [validate_governor, hr]
  · intro fs text
    exact read_file_eq_some_iff fs availableGovernorsPath MAX_BUFFER text

/-! ## The boost controller -/

theorem write_file_file_exists (fs : FS) (p v q : CStr) :
    file_exists (write_file fs p v).2 q = file_exists fs q := by
  unfold write_file file_exists
  cases h : lookup fs.entries p with
  | none => simp
  | some n =>
    cases hw : n.writable
    · simp [hw]
    · by_cases hq : q = p
      · subst hq; simp [hw, lookup_update, h]
      · simp [hw, lookup_update, hq]

theorem boostValue_length (i : Nat) (enable : Int) : (boostValue i enable).length > 0 := by
  unfold boostValue
  split <;> split <;> decide

/-- The loop of `set_cpu_boost` written out over its two candidates. -/
theorem set_cpu_boost_eq (enable : Int) (fs : FS) :
    set_cpu_boost enable fs =
      if file_exists fs boostPath = true then
        if canOpenW fs boostPath = true then
          (write_file fs boostPath (boostValue 0 enable)).2
        else if file_exists fs noTurboPath = true then
          (write_file (write_file fs boostPath (boostValue 0 enable)).2
            noTurboPath (boostValue 1 enable)).2
        else (write_file fs boostPath (boostValue 0 enable)).2
      else if file_exists fs noTurboPath = true then
        (write_file fs noTurboPath (boostValue 1 enable)).2
      else fs := by
  have hr : List.range 2 = [0, 1] := by decide
  have h0 : boost_files.getD 0 [] = boostPath := rfl
  have h1 : boost_files.getD 1 [] = noTurboPath := rfl
  have hl0 := boostValue_length 0 enable
  have hl1 := boostValue_length 1 enable
  unfold set_cpu_boost
  rw [hr]
  simp only [boostLoop, h0, h1, write_file_fst, write_file_file_exists]
  by_cases hA : file_exists fs boostPath = true
  · by_cases hwA : canOpenW fs boostPath = true
    · simp [hA, hwA, hl0]
    · by_cases hB : file_exists fs noTurboPath = true
      · by_cases hwB : canOpenW (write_file fs boostPath (boostValue 0 enable)).2
            noTurboPath = true <;> simp [hA, hwA, hB, hwB]
      · simp [hA, hwA, hB]
  · by_cases hB : file_exists fs noTurboPath = true
    · by_cases hwB : canOpenW fs noTurboPath = true <;> simp [hA, hB, hwB]
    · simp [hA, hB]

theorem boostPath_ne_noTurboPath : boostPath ≠ noTurboPath := by decide

theorem set_cpu_boost_newCalls (enable : Int) (fs : FS) :
    (set_cpu_boost enable fs).log = fs.log ++ newCalls fs (set_cpu_boost enable fs) ∧
    newCalls fs (set_cpu_boost enable fs) =
      if file_exists fs boostPath = true then
        ⟨boostPath, boostValue 0 enable, canOpenW fs boostPath⟩ ::
          (if canOpenW fs boostPath = true then []
          else if file_exists fs noTurboPath = true then
            [⟨noTurboPath, boostValue 1 enable, canOpenW fs noTurboPath⟩]
          else [])
      else if file_exists fs noTurboPath = true then
        [⟨noTurboPath, boostValue 1 enable, canOpenW fs noTurboPath⟩]
      else [] := by
  have hl0 := boostValue_length 0 enable
  have hl1 := boostValue_length 1 enable
  rw [set_cpu_boost_eq]
  by_cases hA : file_exists fs boostPath = true
  · by_cases hwA : canOpenW fs boostPath = true
    · simp [hA, hwA, newCalls, write_file_log, hl0]
    · by_cases hB : file_exists fs noTurboPath = true
      · simp [hA, hwA, hB, newCalls, write_file_log, write_file_canOpenW, hl1]
      · simp [hA, hwA, hB, newCalls, write_file_log]
  · by_cases hB : file_exists fs noTurboPath = true
    · simp [hA, hB, newCalls, write_file_log, hl1]
    · simp [hA, hB, newCalls]

theorem set_cpu_boost_contentOf (enable : Int) (fs : FS) (q : CStr) :
    contentOf (set_cpu_boost enable fs) q =
      if q = boostPath ∧ canOpenW fs boostPath = true then some (boostValue 0 enable)
      else if q = noTurboPath ∧ canOpenW fs boostPath = false ∧
          canOpenW fs noTurboPath = true then some (boostValue 1 enable)
      else contentOf fs q := by
  have hne := boostPath_ne_noTurboPath
  have hex : ∀ p, canOpenW fs p = true → file_exists fs p = true := by
    intro p hp
    unfold canOpenW at hp
    unfold file_exists
    cases h : lookup fs.entries p with
    | none => rw [h] at hp; exact absurd hp (by decide)
    | some n => rfl
  rw [set_cpu_boost_eq]
  by_cases hA : file_exists fs boostPath = true
  · by_cases hwA : canOpenW fs boostPath = true
    · simp [hA, hwA, write_file_contentOf]
    · by_cases hB : file_exists fs noTurboPath = true
      · by_cases hq : q = noTurboPath
        · subst hq
          simp [hA, hwA, hB, write_file_contentOf, write_file_canOpenW, hne.symm]
        · simp [hA, hwA, hB, write_file_contentOf, write_file_canOpenW, hq]
      · have hwB : ¬ canOpenW fs noTurboPath = true := fun h => hB (hex _ h)
        simp [hA, hwA, hB, hwB, write_file_contentOf]
  · have hwA : ¬ canOpenW fs boostPath = true := fun h => hA (hex _ h)
    by_cases hB : file_exists fs noTurboPath = true
    · by_cases hq : q = noTurboPath
      · subst hq
        simp [hA, hwA, hB, write_file_contentOf, hne.symm]
      · simp [hA, hwA, hB, write_file_contentOf, hq]
    · have hwB : ¬ canOpenW fs noTurboPath = true := fun h => hB (hex _ h)
      simp [hA, hwA, hB, hwB]

/-- C5, as stated, fails: the first candidate exists and rejects the write,
and `set_cpu_boost` goes on to write the second candidate. -/
theorem C5_fallthrough_counterexample :
    file_exists boostRejected boostPath = true ∧
      callsTo noTurboPath (newCalls boostRejected (set_cpu_boost 1 boostRejected)) =
        [⟨noTurboPath, "0".toList, true⟩] ∧
      contentOf (set_cpu_boost 1 boostRejected) noTurboPath = some "0".toList := by
  decide

/-- C5, amended: when the first boost candidate exists and the write to it
succeeds, `set_cpu_boost` makes no call on the second candidate and leaves
its text as it was; when the first candidate exists and the write to it
fails, the second candidate, if it exists, is written once. -/
theorem C5_second_candidate_after_first (enable : Int) (fs : FS)
    (hA : file_exists fs boostPath = true) :
    (canOpenW fs boostPath = true →
      callsTo noTurboPath (newCalls fs (set_cpu_boost enable fs)) = [] ∧
      contentOf (set_cpu_boost enable fs) noTurboPath = contentOf fs noTurboPath) ∧
    (canOpenW fs boostPath = false → file_exists fs noTurboPath = true →
      callsTo noTurboPath (newCalls fs (set_cpu_boost enable fs)) =
        [⟨noTurboPath, boostValue 1 enable, canOpenW fs noTurboPath⟩]) := by
  have hne := boostPath_ne_noTurboPath
  obtain ⟨-, hcalls⟩ := set_cpu_boost_newCalls enable fs
  constructor
  · intro hw
    constructor
    · rw [hcalls]; simp [hA, hw, callsTo, hne]
    · rw [set_cpu_boost_contentOf]; simp [hw, hne.symm]
  · intro hw hB
    rw [hcalls]; simp [hA, hw, hB, callsTo, hne]

theorem C5_second_candidate_after_first_witness :
    file_exists boostBoth boostPath = true ∧
      callsTo noTurboPath (newCalls boostBoth (set_cpu_boost 0 boostBoth)) = [] ∧
      contentOf (set_cpu_boost 0 boostBoth) noTurboPath = contentOf boostBoth noTurboPath :=
  ⟨by decide, (C5_second_candidate_after_first 0 boostBoth (by decide)).1 (by decide)⟩

/-- C7: the calls `set_cpu_boost` makes are exactly these: when
`cpufreq/boost` exists it is written with `1` for enable and `0` for disable;
when it is absent, or the write to it fails, and `intel_pstate/no_turbo`
exists, that node is written with `0` for enable and `1` for disable; a node
whose write succeeds then holds the value written and every other node keeps
its text; no call carries another path or value; and when neither node
exists the call changes nothing. -/
theorem C7_boost_polarity (enable : Int) (fs : FS) :
    (set_cpu_boost enable fs).log = fs.log ++ newCalls fs (set_cpu_boost enable fs) ∧
    (newCalls fs (set_cpu_boost enable fs) =
      if file_exists fs boostPath = true then
        ⟨boostPath, if enable ≠ 0 then "1".toList else "0".toList,
            canOpenW fs boostPath⟩ ::
          (if canOpenW fs boostPath = true then []
          else if file_exists fs noTurboPath = true then
            [⟨noTurboPath, if enable ≠ 0 then "0".toList else "1".toList,
              canOpenW fs noTurboPath⟩]
          else [])
      else if file_exists fs noTurboPath = true then
        [⟨noTurboPath, if enable ≠ 0 then "0".toList else "1".toList,
          canOpenW fs noTurboPath⟩]
      else []) ∧
    (∀ q, contentOf (set_cpu_boost enable fs) q =
      if q = boostPath ∧ canOpenW fs boostPath = true then
        some (if enable ≠ 0 then "1".toList else "0".toList)
      else if q = noTurboPath ∧ canOpenW fs boostPath = false ∧
          canOpenW fs noTurboPath = true then
        some (if enable ≠ 0 then "0".toList else "1".toList)
      else contentOf fs q) ∧
    (∀ c ∈ newCalls fs (set_cpu_boost enable fs),
      (c.path = boostPath ∧
        c.value = if enable ≠ 0 then "1".toList else "0".toList) ∨
      (c.path = noTurboPath ∧
        c.value = if enable ≠ 0 then "0".toList else "1".toList)) ∧
    (∀ q, contentOf (set_cpu_boost enable fs) q = contentOf fs q ∨
      (q = boostPath ∧ contentOf (set_cpu_boost enable fs) q =
        some (if enable ≠ 0 then "1".toList else "0".toList)) ∨
      (q = noTurboPath ∧ contentOf (set_cpu_boost enable fs) q =
        some (if enable ≠ 0 then "0".toList else "1".toList))) ∧
    (file_exists fs boostPath = false → file_exists fs noTurboPath = false →
      set_cpu_boost enable fs = fs) := by
  have hv0 : boostValue 0 enable = if enable ≠ 0 then "1".toList else "0".toList := rfl
  have hv1 : boostValue 1 enable = if enable ≠ 0 then "0".toList else "1".toList := rfl
  obtain ⟨hlog, hcalls⟩ := set_cpu_boost_newCalls enable fs
  refine ⟨hlog, ?_, ?_, ?_, ?_, ?_⟩
  · rw [← hv0, ← hv1]; exact hcalls
  · intro q
    rw [← hv0, ← hv1]; exact set_cpu_boost_contentOf enable fs q
  · intro c hc
    rw [hcalls] at hc
    rw [← hv0, ← hv1]
    by_cases hA : file_exists fs boostPath = true
    · by_cases hwA : canOpenW fs boostPath = true
      · simp [hA, hwA] at hc; subst hc; simp
      · by_cases hB : file_exists fs noTurboPath = true
        · simp [hA, hwA, hB] at hc
          rcases hc with hc | hc <;> subst hc <;> simp
        · simp [hA, hwA, hB] at hc; subst hc; simp
    · by_cases hB : file_exists fs noTurboPath = true
      · simp [hA, hB] at hc; subst hc; simp
      · simp [hA, hB] at hc
  · intro q
    rw [← hv0, ← hv1, set_cpu_boost_contentOf]
    by_cases h1 : q = boostPath ∧ canOpenW fs boostPath = true
    · rw [if_pos h1]; exact Or.inr (Or.inl ⟨h1.1, rfl⟩)
    · rw [if_neg h1]
      by_cases h2 : q = noTurboPath ∧ canOpenW fs boostPath = false ∧
          canOpenW fs noTurboPath = true
      · rw [if_pos h2]; exact Or.inr (Or.inr ⟨h2.1, rfl⟩)
      · rw [if_neg h2]; exact Or.inl rfl
  · intro hA hB
    rw [set_cpu_boost_eq]; simp [hA, hB]

theorem C7_boost_polarity_witness :
    newCalls boostBoth (set_cpu_boost 1 boostBoth) =
        [⟨boostPath, "1".toList, true⟩] ∧
      contentOf (set_cpu_boost 1 boostBoth) boostPath = some "1".toList ∧
      newCalls boostBoth (set_cpu_boost 0 boostBoth) =
        [⟨boostPath, "0".toList, true⟩] ∧
      newCalls boostRejected (set_cpu_boost 1 boostRejected) =
        [⟨boostPath, "1".toList, false⟩, ⟨noTurboPath, "0".toList, true⟩] ∧
      newCalls boostRejected (set_cpu_boost 0 boostRejected) =
        [⟨boostPath, "0".toList, false⟩, ⟨noTurboPath, "1".toList, true⟩] ∧
      contentOf (set_cpu_boost 0 boostRejected) noTurboPath = some "1".toList :=
  ⟨(C7_boost_polarity 1 boostBoth).2.1.trans (by decide),
    ((C7_boost_polarity 1 boostBoth).2.2.1 boostPath).trans (by decide),
    (C7_boost_polarity 0 boostBoth).2.1.trans (by decide),
    (C7_boost_polarity 1 boostRejected).2.1.trans (by decide),
    (C7_boost_polarity 0 boostRejected).2.1.trans (by decide),
    ((C7_boost_polarity 0 boostRejected).2.2.1 noTurboPath).trans (by decide)⟩

/-! ## The command line -/

/-- For a command that is no keyword, `main` exits with 0 exactly when the
caller is root and `set_governor` returns 1. -/
theorem main_generic_exit_code (env : Env) (prog command : CStr) (rest : List CStr)
    (fs : FS)
    (h1 : command ≠ "help".toList) (h2 : command ≠ "-h".toList)
    (h3 : command ≠ "status".toList) (h4 : command ≠ "install".toList)
    (h5 : command ≠ "performance".toList) (h6 : command ≠ "powersave".toList)
    (hv : validate_governor fs command = true) :
    ((main env (prog :: command :: rest) fs).1 = 0 ↔
      env.uid = 0 ∧ (set_governor fs command).ret = 1) ∧
    ((main env (prog :: command :: rest) fs).1 ≠ 0 →
      (main env (prog :: command :: rest) fs).1 = 1) := by
  obtain ⟨-, -, -, -, h5r, -⟩ := set_governor_valid fs command hv
  have hret : (set_governor fs command).ret ≠ 1 → (set_governor fs command).ret = 0 := by
    intro hne
    rw [h5r] at hne ⊢
    split
    · rename_i hh; rw [if_pos hh] at hne; exact absurd rfl hne
    · rfl
  unfold main
  simp only [h1, h2, h3, h4, h5, h6, false_or, if_false, is_root]
  by_cases hu : env.uid = 0
  · by_cases hr : (set_governor fs command).ret = 1
    · simp [hu, hr]
    · have := hret hr
      simp [hu, this]
  · simp [hu]

/-- C6: run as root on a machine without cpufreq nodes, `set_governor`
fails for both presets, yet `main` exits with 0 for `performance` and for
`powersave`; the same holds when one of three cores rejects the write; the
generic path exits with 1 on the same machines. -/
theorem C6_preset_exit_code_ignores_failure :
    (set_governor noCpufreq "performance".toList).ret = 0 ∧
    (main ⟨0, true⟩ ["cpu-governor".toList, "performance".toList] noCpufreq).1 = 0 ∧
    (set_governor noCpufreq "powersave".toList).ret = 0 ∧
    (main ⟨0, true⟩ ["cpu-governor".toList, "powersave".toList] noCpufreq).1 = 0 ∧
    (set_governor threeCores "performance".toList).ret = 0 ∧
    (main ⟨0, true⟩ ["cpu-governor".toList, "performance".toList] threeCores).1 = 0 ∧
    (set_governor noCpufreq "ondemand".toList).ret = 0 ∧
    (main ⟨0, true⟩ ["cpu-governor".toList, "ondemand".toList] noCpufreq).1 = 1 ∧
    (main ⟨1000, true⟩ ["cpu-governor".toList, "performance".toList] noCpufreq).1 = 1 := by
  decide

/-! ## The status reporter -/

theorem digitChar_props (m : Nat) (h : m < 10) :
    (Nat.digitChar m).isDigit = true ∧ (Nat.digitChar m).toNat - '0'.toNat = m ∧
      isspace (Nat.digitChar m) = false ∧ Nat.digitChar m ≠ '-' ∧
      Nat.digitChar m ≠ '+' := by
  interval_cases m <;> decide

theorem atoiDigits_toDigitsCore (fuel : Nat) : ∀ (n : Nat) (ds : CStr), n < fuel →
    ∃ k c cs, Nat.toDigitsCore 10 fuel n ds = c :: cs ∧ c.isDigit = true ∧
      isspace c = false ∧ c ≠ '-' ∧ c ≠ '+' ∧
      ∀ acc, atoiDigits acc (c :: cs) = atoiDigits (acc * 10 ^ k + n) ds := by
  induction fuel with
  | zero => intro n ds h; omega
  | succ fuel ih =>
    intro n ds hn
    obtain ⟨hd, hv, hs, hm, hp⟩ := digitChar_props (n % 10) (Nat.mod_lt _ (by decide))
    by_cases h0 : n / 10 = 0
    · refine ⟨1, Nat.digitChar (n % 10), ds, ?_, hd, hs, hm, hp, ?_⟩
      · simp [Nat.toDigitsCore, h0]
      · intro acc
        have hlt : n < 10 := by omega
        have hmod : n % 10 = n := Nat.mod_eq_of_lt hlt
        simp only [atoiDigits, hd, if_true, hv, pow_one]
        rw [hmod]
    · have hlt : n / 10 < fuel := by omega
      obtain ⟨k, c, cs, he, hcd, hcs, hcm, hcp, hacc⟩ :=
        ih (n / 10) (Nat.digitChar (n % 10) :: ds) hlt
      refine ⟨k + 1, c, cs, ?_, hcd, hcs, hcm, hcp, ?_⟩
      · simp [Nat.toDigitsCore, h0, he]
      · intro acc
        rw [hacc acc]
        simp only [atoiDigits, hd, if_true, hv]
        congr 1
        have := Nat.div_add_mod n 10
        rw [pow_succ]
        nlinarith [Nat.div_add_mod n 10]

theorem atoi_repr (n : Nat) (h : n < 2 ^ 31) : atoi (Nat.repr n).toList = (n : Int) := by
  obtain ⟨k, c, cs, he, hcd, hcs, hcm, hcp, hacc⟩ :=
    atoiDigits_toDigitsCore (n + 1) n [] (Nat.lt_succ_self n)
  have hl : (Nat.repr n).toList = c :: cs := he
  have hval : atoiDigits 0 (c :: cs) = n := by
    rw [hacc 0]; simp [atoiDigits]
  unfold atoi
  rw [hl]
  simp only [List.dropWhile, hcs, atoiSigned, hcm, hcp, if_false, hval]
  have h2 : (n : Int) < 2 ^ 31 := by exact_mod_cast h
  have h3 : (0 : Int) ≤ n := Int.ofNat_nonneg n
  norm_num at h2 ⊢
  omega

theorem samplesOf_append (a b : List Out) : samplesOf (a ++ b) = samplesOf a ++ samplesOf b := by
  induction a with
  | nil => rfl
  | cons o rest ih => cases o <;> simp [samplesOf, ih]

theorem samplesOf_sampleLoop (fs : FS) (is : List Nat) :
    samplesOf (sampleLoop fs is) =
      is.filterMap (fun i =>
        (read_file fs (freqPath i) MAX_BUFFER).map
          (fun b => (i, Int.tdiv (atoi b) 1000))) := by
  induction is with
  | nil => rfl
  | cons i is ih =>
    unfold sampleLoop
    cases hr : read_file fs (freqPath i) MAX_BUFFER with
    | none => simp [List.filterMap_cons, hr, ih]
    | some b => simp [List.filterMap_cons, hr, ih, samplesOf]

theorem more_not_mem_sampleLoop (fs : FS) (is : List Nat) : Out.more ∉ sampleLoop fs is := by
  induction is with
  | nil => simp [sampleLoop]
  | cons i is ih =>
    unfold sampleLoop
    cases hr : read_file fs (freqPath i) MAX_BUFFER with
    | none => simpa using ih
    | some b => simpa using ih

theorem freqPath_eq (i : Nat) (h : i < 4) :
    freqPath i = "/sys/devices/system/cpu/cpu".toList ++ (Nat.repr i).toList ++
      "/cpufreq/scaling_cur_freq".toList := by
  interval_cases i <;> decide

/-- C9, as stated, fails: with cores `cpu0` and `cpu2` enumerated, both with a
readable frequency node, the first two cores in enumeration order run at
2400 and 1800 MHz, but the report samples `cpu0` and `cpu1` and holds the
single sample of `cpu0`. -/
theorem C9_enumeration_order_counterexample :
    (read_file gapCores currentGovernorPath MAX_BUFFER).isSome = true ∧
      enumerated gapCores = [corePath 0, corePath 2] ∧
      get_cpu_count gapCores = 2 ∧
      sampledInEnumerationOrder gapCores = [2400, 1800] ∧
      samplesOf (show_current_status gapCores) = [(0, 2400)] := by
  decide

/-- C9, amended: when the reference governor node can be read,
`show_current_status` walks the indices `0 .. min(4, N) - 1` in increasing
order and emits, for each index whose node `cpu<i>/cpufreq/scaling_cur_freq`
can be read, one sample holding `atoi` of the text divided by 1000 and
truncated; a node holding the decimal text of `n < 2^31` is reported as
`n / 1000`; at most 4 samples are emitted; the more-cores marker is emitted
exactly when `N > 4`. -/
theorem C9_samples_by_index (fs : FS)
    (hread : (read_file fs currentGovernorPath MAX_BUFFER).isSome = true) :
    samplesOf (show_current_status fs) =
      (List.range (min 4 (get_cpu_count fs))).filterMap (fun i =>
        (read_file fs
          ("/sys/devices/system/cpu/cpu".toList ++ (Nat.repr i).toList ++
            "/cpufreq/scaling_cur_freq".toList) MAX_BUFFER).map
          (fun b => (i, Int.tdiv (atoi b) 1000))) ∧
    (∀ i n, i < min 4 (get_cpu_count fs) → n < 2 ^ 31 →
      read_file fs
        ("/sys/devices/system/cpu/cpu".toList ++ (Nat.repr i).toList ++
          "/cpufreq/scaling_cur_freq".toList) MAX_BUFFER = some (Nat.repr n).toList →
      (i, ((n / 1000 : Nat) : Int)) ∈ samplesOf (show_current_status fs)) ∧
    (samplesOf (show_current_status fs)).length ≤ 4 ∧
    (Out.more ∈ show_current_status fs ↔ get_cpu_count fs > 4) := by
  have hs : samplesOf (show_current_status fs) =
      (List.range (min 4 (get_cpu_count fs))).filterMap (fun i =>
        (read_file fs (freqPath i) MAX_BUFFER).map
          (fun b => (i, Int.tdiv (atoi b) 1000))) := by
    unfold show_current_status
    cases hr : read_file fs currentGovernorPath MAX_BUFFER with
    | none => rw [hr] at hread; exact absurd hread (by decide)
    | some buffer =>
      simp only [samplesOf_append, samplesOf_sampleLoop]
      cases read_file fs availableGovernorsPath MAX_BUFFER <;>
        by_cases h4 : get_cpu_count fs > 4 <;> simp [h4, samplesOf]
  have hpaths : (List.range (min 4 (get_cpu_count fs))).filterMap (fun i =>
        (read_file fs (freqPath i) MAX_BUFFER).map
          (fun b => (i, Int.tdiv (atoi b) 1000))) =
      (List.range (min 4 (get_cpu_count fs))).filterMap (fun i =>
        (read_file fs
          ("/sys/devices/system/cpu/cpu".toList ++ (Nat.repr i).toList ++
            "/cpufreq/scaling_cur_freq".toList) MAX_BUFFER).map
          (fun b => (i, Int.tdiv (atoi b) 1000))) := by
    apply List.filterMap_congr
    intro i hi
    have hi4 : i < 4 := by
      have := List.mem_range.1 hi
      omega
    rw [freqPath_eq i hi4]
  have hmain := hs.trans hpaths
  refine ⟨hmain, ?_, ?_, ?_⟩
  · intro i n hi hn hr
    rw [hmain, List.mem_filterMap]
    refine ⟨i, List.mem_range.2 hi, ?_⟩
    rw [hr, Option.map_some', atoi_repr n hn]
    rfl
  · rw [hs]
    calc _ ≤ (List.range (min 4 (get_cpu_count fs))).length := List.length_filterMap_le _ _
      _ ≤ 4 := by rw [List.length_range]; omega
  · unfold show_current_status
    cases hr : read_file fs currentGovernorPath MAX_BUFFER with
    | none => rw [hr] at hread; exact absurd hread (by decide)
    | some buffer =>
      have hnm := more_not_mem_sampleLoop fs (List.range (min 4 (get_cpu_count fs)))
      cases read_file fs availableGovernorsPath MAX_BUFFER <;>
        by_cases h4 : get_cpu_count fs > 4 <;> simp [h4, hnm]

theorem C9_samples_by_index_witness :
    (read_file sixCores currentGovernorPath MAX_BUFFER).isSome = true ∧
      (3, (3600 : Int)) ∈ samplesOf (show_current_status sixCores) ∧
      (samplesOf (show_current_status sixCores)).length ≤ 4 ∧
      Out.more ∈ show_current_status sixCores :=
  ⟨by decide,
    (C9_samples_by_index sixCores (by decide)).2.1 3 3600999 (by decide) (by decide)
      (by decide),
    (C9_samples_by_index sixCores (by decide)).2.2.1,
    (C9_samples_by_index sixCores (by decide)).2.2.2.2 (by decide)⟩

end CpuGovernor
